import Mathlib

/-!
Shallow embedding of the yt-video-downloader backend (the revision in
src/unnamed/part_000, whose helpers also appear in src/backend/server.js):
the URL validator, the quality-selector mapping, the filename sanitizer,
the temp-file janitor, and the three request handlers
(POST /api/video-info, GET /api/download, POST /api/formats), together
with theorems settling the frozen claims about them.
-/

namespace YtDl

/-! ### Character classes

JS regex classes used by the backend: `\w` is `[A-Za-z0-9_]`, `\s` is the
ECMAScript whitespace class (modelled by its common members), and the URL
identifier class is `[\w-]`. -/

def isWordChar (c : Char) : Bool :=
  c.isAlphanum || c = '_'

def isIdChar (c : Char) : Bool :=
  isWordChar c || c = '-'

def isJsWs (c : Char) : Bool :=
  c = ' ' || c = '\t' || c = '\n' || c = '\r' || c = '\x0b' || c = '\x0c' ||
  c = '\u00A0' || c = '\u2028' || c = '\u2029' || c = '\uFEFF'

/-! ### URL validator

Embeds `isValidYouTubeUrl` (part_000 lines 77-80):
`/^(https?:\/\/)?(www\.)?(youtube\.com\/(watch\?v=|embed\/|v\/|shorts\/)|youtu\.be\/)[\w-]+/.test(url)`.
The two optional groups are deterministic here (no accepted continuation
starts with `h` or collides with `www.`), so the regex's backtracking search
is embedded as greedy stripping of the optional prefixes followed by an
existential over the five path-head alternatives. -/

def protoHttps : List Char := ['h', 't', 't', 'p', 's', ':', '/', '/']

def protoHttp : List Char := ['h', 't', 't', 'p', ':', '/', '/']

def wwwDot : List Char := ['w', 'w', 'w', '.']

def headWatch : List Char :=
  ['y', 'o', 'u', 't', 'u', 'b', 'e', '.', 'c', 'o', 'm', '/', 'w', 'a', 't', 'c', 'h', '?', 'v', '=']

def headEmbed : List Char :=
  ['y', 'o', 'u', 't', 'u', 'b', 'e', '.', 'c', 'o', 'm', '/', 'e', 'm', 'b', 'e', 'd', '/']

def headV : List Char :=
  ['y', 'o', 'u', 't', 'u', 'b', 'e', '.', 'c', 'o', 'm', '/', 'v', '/']

def headShorts : List Char :=
  ['y', 'o', 'u', 't', 'u', 'b', 'e', '.', 'c', 'o', 'm', '/', 's', 'h', 'o', 'r', 't', 's', '/']

def headShort : List Char :=
  ['y', 'o', 'u', 't', 'u', '.', 'b', 'e', '/']

def pathHeads : List (List Char) := [headWatch, headEmbed, headV, headShorts, headShort]

/-- True when the identifier position holds at least one `[\w-]` character. -/
def idStart : List Char → Bool
  | [] => false
  | c :: _ => isIdChar c

/-- One alternative of the regex: the head `h` occurs at the current
position and is followed by a non-empty `[\w-]` identifier. -/
def headMatches (h cs : List Char) : Bool :=
  h.isPrefixOf cs && idStart (cs.drop h.length)

/-- Greedy consumption of the optional `(https?:\/\/)?` group. -/
def afterProto (cs : List Char) : List Char :=
  if protoHttps.isPrefixOf cs then cs.drop protoHttps.length
  else if protoHttp.isPrefixOf cs then cs.drop protoHttp.length
  else cs

/-- Greedy consumption of the optional `(www\.)?` group. -/
def afterWww (cs : List Char) : List Char :=
  if wwwDot.isPrefixOf cs then cs.drop wwwDot.length else cs

def validCore (cs : List Char) : Bool :=
  pathHeads.any fun h => headMatches h (afterWww (afterProto cs))

def isValidYouTubeUrl (url : String) : Bool :=
  validCore url.data

/-! ### Spec-side URL grammar

Written from the spec's words, for comparison with the code's validator: a
URL matches when some choice of optional protocol, optional `www.`, and one
of the listed path shapes is a prefix and a non-empty identifier follows. -/

def matchesShapes (heads : List (List Char)) (cs : List Char) : Bool :=
  [([] : List Char), protoHttp, protoHttps].any fun p =>
    [([] : List Char), wwwDot].any fun w =>
      heads.any fun h => headMatches (p ++ w ++ h) cs

/-- The four URL shapes named by the spec: watch-query, embed, shorts,
short-link. Modelled from the spec: the spec's accepted-shape list omits
the legacy `/v/` path that the code's regex also accepts. -/
def specHeads4 : List (List Char) := [headWatch, headEmbed, headShorts, headShort]

/-- Validity according to the spec's four-shape grammar. -/
def specFourShapeValid (url : String) : Bool :=
  matchesShapes specHeads4 url.data

/-- Validity according to the five-shape grammar (the four spec shapes plus
the legacy `/v/` path present in the code's regex). -/
def specFiveShapeValid (url : String) : Bool :=
  matchesShapes pathHeads url.data

/-! ### Coercion of non-string inputs

`youtubeRegex.test(url)` applies the JS ToString abstract operation to a
non-string argument before matching. The values reachable here are
`undefined` and JSON-decoded values (numbers are modelled as integers;
plain JSON objects stringify to "[object Object]" since they cannot carry
a custom toString). An array stringifies via `Array.prototype.join(',')`,
under which null and undefined elements become empty strings. -/

inductive JsValue where
  | undef
  | null
  | bool (b : Bool)
  | num (n : Int)
  | str (s : String)
  | obj
  | arr (elems : List JsValue)

mutual

def jsToString : JsValue → String
  | .undef => "undefined"
  | .null => "null"
  | .bool b => cond b "true" "false"
  | .num n => toString n
  | .str s => s
  | .obj => "[object Object]"
  | .arr xs => jsArrString xs

def jsArrString : List JsValue → String
  | [] => ""
  | [.undef] => ""
  | [.null] => ""
  | [v] => jsToString v
  | .undef :: rest => "," ++ jsArrString rest
  | .null :: rest => "," ++ jsArrString rest
  | v :: rest => jsToString v ++ "," ++ jsArrString rest

end

/-- The validator applied to an arbitrary JS value: `RegExp.test` coerces
its argument with ToString and then matches. -/
def isValidYouTubeUrlJs (v : JsValue) : Bool :=
  isValidYouTubeUrl (jsToString v)

/-! ### Filename sanitization

Embeds the title cleaning on part_000 lines 283-290:
`data.toString().trim()` followed by
`.replace(/[^\w\s-]/g, '').replace(/\s+/g, '_').substring(0, 100)`. -/

/-- JS `String.prototype.trim`: whitespace removed from both ends. -/
def jsTrim (cs : List Char) : List Char :=
  ((cs.dropWhile isJsWs).reverse.dropWhile isJsWs).reverse

/-- First replace: characters outside `[\w\s-]` are deleted. -/
def stripUnsafe (cs : List Char) : List Char :=
  cs.filter fun c => isWordChar c || isJsWs c || c = '-'

/-- Second replace, one character at a time: the flag records whether the
scan is inside a whitespace run whose underscore was already emitted. -/
def collapseWsAux : Bool → List Char → List Char
  | _, [] => []
  | inRun, c :: rest =>
    if isJsWs c then
      if inRun then collapseWsAux true rest
      else '_' :: collapseWsAux true rest
    else c :: collapseWsAux false rest

/-- Second replace: each maximal run of whitespace becomes one underscore. -/
def collapseWs (cs : List Char) : List Char :=
  collapseWsAux false cs

def sanitizeTitle (raw : String) : String :=
  ⟨(collapseWs (stripUnsafe (jsTrim raw.data))).take 100⟩

/-- Characters allowed in a sanitized filename. -/
def isSafeChar (c : Char) : Bool :=
  isWordChar c || c = '-'

/-! ### Temp-file janitor

Embeds `cleanupOldFiles` (part_000 lines 82-96). The scratch directory is a
list of entries in enumeration order; `statErr`/`unlinkErr` say whether the
`fs.stat`/`fs.unlink` call on that entry would reject. The `try` block wraps
the whole `for` loop, so the first rejected promise unwinds to the `catch`
(which logs) with the remaining entries untouched. The second component
records whether an error was caught and logged. -/

structure FsEntry where
  name : String
  mtimeMs : Int
  statErr : Bool
  unlinkErr : Bool
deriving DecidableEq

def retentionMs : Int := 60 * 60 * 1000

def isOld (now : Int) (e : FsEntry) : Bool :=
  now - e.mtimeMs > retentionMs

def cleanupOldFiles (now : Int) : List FsEntry → List FsEntry × Bool
  | [] => ([], false)
  | e :: rest =>
    if e.statErr then (e :: rest, true)
    else if isOld now e then
      if e.unlinkErr then (e :: rest, true)
      else cleanupOldFiles now rest
    else
      let r := cleanupOldFiles now rest
      (e :: r.1, r.2)

/-- True when processing this entry raises (stat rejects, or the entry is
due for deletion and unlink rejects). -/
def entryFails (now : Int) (e : FsEntry) : Bool :=
  e.statErr || (isOld now e && e.unlinkErr)

/-! ### Quality selector mapping

Embeds the `switch (quality)` on part_000 lines 264-272. -/

def formatSelector (quality : String) : String :=
  if quality == "4k" then "bestvideo[height<=2160]+bestaudio/best[height<=2160]"
  else if quality == "1080p" then "bestvideo[height<=1080]+bestaudio/best[height<=1080]"
  else if quality == "720p" then "bestvideo[height<=720]+bestaudio/best[height<=720]"
  else if quality == "480p" then "bestvideo[height<=480]+bestaudio/best[height<=480]"
  else if quality == "360p" then "bestvideo[height<=360]+bestaudio/best[height<=360]"
  else "best"

/-! ### JSON values and metadata mapping

JSON.parse is external; its possible results are modelled as this value
type, and each extractor run carries the parse outcome of its accumulated
standard output. Property access on a non-object yields `undefined`, and
`res.json` drops `undefined` members, so mapped fields are `Option Json`. -/

inductive Json where
  | null
  | bool (b : Bool)
  | num (n : Int)
  | str (s : String)
  | arr (elems : List Json)
  | obj (fields : List (String × Json))

def Json.getField : Json → String → Option Json
  | .obj fields, k => (fields.find? fun f => f.1 == k).map (·.2)
  | _, _ => none

structure InfoBody where
  title : Option Json
  duration : Option Json
  thumbnail : Option Json
  uploader : Option Json
  view_count : Option Json
  formats : Option Json

/-- Body of the 200 response of POST /api/video-info (part_000 lines 222-229
and 185-192): the five metadata fields plus the format list, each read off
the parsed JSON document. -/
def mapInfo (j : Json) : InfoBody :=
  ⟨j.getField "title", j.getField "duration", j.getField "thumbnail",
   j.getField "uploader", j.getField "view_count", j.getField "formats"⟩

/-! ### Responses and process outcomes -/

inductive RespBody where
  | info (b : InfoBody)
  | err (error : String) (details : Option String)
  | formatsText (listing : String)

structure Resp where
  status : Nat
  body : RespBody

def respInvalidUrl : Resp :=
  ⟨400, .err "Invalid YouTube URL provided" none⟩

def respAuthRequired : Resp :=
  ⟨400, .err "YouTube requires authentication"
    (some "Please try a different video or use cookies for authentication")⟩

inductive ParseOutcome where
  | ok (j : Json)
  | fail (msg : String)

/-- Outcome of one metadata extractor invocation that did start: exit code,
the JSON.parse outcome on its accumulated stdout, and its stderr text. -/
structure InfoRun where
  exitCode : Int
  parsed : ParseOutcome
  stderr : String

/-- A spawned process either fails to start (the `error` event fires, then
`close` fires with a null code and no output was produced) or runs to
completion. -/
inductive Proc where
  | spawnFailed (msg : String)
  | ran (r : InfoRun)

/-! ### Extractor argument lists (part_000 lines 111-128, 161-167) -/

def primaryUA : String :=
  "Mozilla/5.0 (Windows NT 10.0; Win64; x64) AppleWebKit/537.36 (KHTML, like Gecko) Chrome/120.0.0.0 Safari/537.36"

def fallbackUA : String :=
  "Mozilla/5.0 (Linux; Android 10; SM-G973F) AppleWebKit/537.36 (KHTML, like Gecko) Chrome/120.0.0.0 Mobile Safari/537.36"

def infoBaseArgs (url : String) : List String :=
  ["--dump-json", "--no-download", "--no-check-certificates", "--geo-bypass",
   "--user-agent", primaryUA,
   "--referer", "https://www.youtube.com/",
   "--add-header", "Accept-Language:en-US,en;q=0.9",
   "--add-header", "Accept:application/json, text/plain, */*",
   "--extractor-args", "youtube:player_client=web", url]

/-- When COOKIES_PATH is set, `--cookies <path>` is unshifted in front. -/
def infoArgs (cookiesPath : Option String) (url : String) : List String :=
  match cookiesPath with
  | some cp => "--cookies" :: cp :: infoBaseArgs url
  | none => infoBaseArgs url

def fallbackArgs (url : String) : List String :=
  ["--dump-json", "--no-download",
   "--extractor-args", "youtube:player_client=android,web",
   "--user-agent", fallbackUA, url]

/-- Value following the first occurrence of a flag in an argument list. -/
def argValue (flag : String) : List String → Option String
  | x :: y :: rest => if x == flag then some y else argValue flag (y :: rest)
  | _ => none

/-- Substring test via the tails of the haystack, used for the
`errorOutput.includes('Sign in to confirm')` check. -/
def containsSub (needle hay : List Char) : Bool :=
  hay.tails.any fun t => needle.isPrefixOf t

def hasAuthSig (s : String) : Bool :=
  containsSub "Sign in to confirm".data s.data

/-! ### Missing/invalid url guard shared by the three handlers -/

/-- The guard `!url || !isValidYouTubeUrl(url)`: true when the request is
rejected with 400 before anything is spawned (url absent, empty — falsy —
or failing the validator). -/
def urlRejected (url? : Option String) : Bool :=
  match url? with
  | none => true
  | some u => u == "" || !isValidYouTubeUrl u

/-! ### POST /api/video-info handler (part_000 lines 99-251)

Modelled as a pure function of the request url, the COOKIES_PATH setting,
and the outcomes of the primary and (if spawned) fallback extractor
invocations. It returns the list of HTTP responses written, in order, and
the argument lists of the processes spawned, in order. `res.headersSent`
is true exactly when some response has already been written, so the
guarded sends of the source are `sendGuarded` and the unguarded sends in
the fallback's close callback are `sendAlways`. -/

def sendGuarded (sent : List Resp) (r : Resp) : List Resp :=
  if sent.isEmpty then sent ++ [r] else sent

def sendAlways (sent : List Resp) (r : Resp) : List Resp :=
  sent ++ [r]

/-- Close callback of the fallback process (part_000 lines 181-205); all of
its sends are unguarded. A spawn failure of the fallback surfaces as a
`close` event with a null exit code, which is `!== 0`. -/
def closeFallback (sent : List Resp) (fb : Proc) : List Resp :=
  match fb with
  | .spawnFailed _ => sendAlways sent respAuthRequired
  | .ran r2 =>
    if r2.exitCode != 0 then sendAlways sent respAuthRequired
    else
      match r2.parsed with
      | .ok j => sendAlways sent ⟨200, .info (mapInfo j)⟩
      | .fail m => sendAlways sent ⟨500, .err "Failed to parse video information" (some m)⟩

def videoInfoHandler (cookiesPath : Option String) (url? : Option String)
    (primary fb : Proc) : List Resp × List (List String) :=
  match url? with
  | none => ([respInvalidUrl], [])
  | some url =>
    if url == "" || !isValidYouTubeUrl url then ([respInvalidUrl], [])
    else
      let args := infoArgs cookiesPath url
      match primary with
      | .spawnFailed msg =>
        -- the error event sends 500 (guarded); then close fires with a null
        -- code and empty stderr: no auth signature, and the guarded 400 is
        -- skipped because a response was already written
        let sent := sendGuarded [] ⟨500, .err "Failed to execute video processor" (some msg)⟩
        let sent := if hasAuthSig "" then closeFallback sent fb
                    else sendGuarded sent ⟨400, .err "Failed to fetch video information" (some "Unknown yt-dlp error")⟩
        (sent, if hasAuthSig "" then [args, fallbackArgs url] else [args])
      | .ran r =>
        if r.exitCode != 0 then
          if hasAuthSig r.stderr then
            (closeFallback [] fb, [args, fallbackArgs url])
          else
            (sendGuarded [] ⟨400, .err "Failed to fetch video information"
              (some (if r.stderr == "" then "Unknown yt-dlp error" else r.stderr))⟩, [args])
        else
          match r.parsed with
          | .ok j => (sendGuarded [] ⟨200, .info (mapInfo j)⟩, [args])
          | .fail m => (sendGuarded [] ⟨500, .err "Failed to parse video information" (some m)⟩, [args])

/-! ### GET /api/download handler (part_000 lines 254-369)

Modelled along the path where the title process emits its close event
(lines 292-335): the title is recomputed from each stdout data chunk (the
last one wins, default 'youtube_video'), headers are set, the streaming
process is spawned and its stdout piped to the response.
`ytDlp.stdout.pipe(res)` propagates the stdout end event by calling
`res.end()`, and a child process's close event fires only after its stdio
streams have closed, so by the time the close callback runs the response
has always ended and `res.headersSent` is true — whether or not any chunk
was produced. The guard `if (code !== 0 && !res.headersSent)` around the
500 response is therefore encoded with `headersSent` fixed to true, and
the 500 branch is unreachable. -/

structure StreamRun where
  chunks : List String
  exitCode : Int

inductive DlOutcome where
  | badRequest (r : Resp)
  | streamed (filename : String) (body : List String)
  | failedBeforeStream (filename : String) (r : Resp)

def downloadTitle (chunks : List String) : String :=
  match chunks.getLast? with
  | none => "youtube_video"
  | some c => sanitizeTitle c

def titleArgs (url : String) : List String :=
  ["--get-title", "--no-check-certificates", url]

def downloadBaseArgs (fs : String) : List String :=
  ["-f", fs, "-o", "-", "--no-check-certificates", "--geo-bypass",
   "--user-agent", primaryUA,
   "--referer", "https://www.youtube.com/",
   "--add-header", "Accept-Language:en-US,en;q=0.9",
   "--extractor-args", "youtube:player_client=web"]

/-- Download arguments: optional `--cookies` unshifted, url pushed last. -/
def downloadArgs (cookiesPath : Option String) (fs url : String) : List String :=
  (match cookiesPath with
   | some cp => "--cookies" :: cp :: downloadBaseArgs fs
   | none => downloadBaseArgs fs) ++ [url]

def downloadHandler (cookiesPath : Option String) (url? quality? : Option String)
    (titleChunks : List String) (stream : StreamRun) : DlOutcome × List (List String) :=
  match url? with
  | none => (.badRequest respInvalidUrl, [])
  | some url =>
    if url == "" || !isValidYouTubeUrl url then (.badRequest respInvalidUrl, [])
    else
      let quality := quality?.getD "best"
      let fsel := formatSelector quality
      let filename := downloadTitle titleChunks ++ ".mp4"
      let spawned := [titleArgs url, downloadArgs cookiesPath fsel url]
      -- piping already ended the response before the close event
      let headersSent := true
      if stream.exitCode != 0 && !headersSent then
        (.failedBeforeStream filename ⟨500, .err "Download failed" none⟩, spawned)
      else
        (.streamed filename stream.chunks, spawned)

/-! ### POST /api/formats handler (part_000 lines 372-414) -/

structure FormatsRun where
  exitCode : Int
  stdout : String
  stderr : String

def formatsHandler (url? : Option String) (run : FormatsRun) : List Resp × List (List String) :=
  match url? with
  | none => ([respInvalidUrl], [])
  | some url =>
    if url == "" || !isValidYouTubeUrl url then ([respInvalidUrl], [])
    else
      let args := ["--list-formats", "--no-check-certificates", url]
      if run.exitCode != 0 then
        ([⟨400, .err "Failed to list formats" (some run.stderr)⟩], [args])
      else
        ([⟨200, .formatsText run.stdout⟩], [args])

/-! ## Theorems -/

/-! ### The URL validator agrees with the shape grammar (claim C1) -/

theorem drop_len_add (p t : List Char) (n : Nat) : (p ++ t).drop (p.length + n) = t.drop n := by
  induction p with
  | nil => simp
  | cons a p ih => simp [Nat.succ_add, ih]

theorem headMatches_shift (p k t : List Char) :
    headMatches (p ++ k) (p ++ t) = headMatches k t := by
  unfold headMatches
  rw [List.length_append, drop_len_add]
  have hb : (p ++ k).isPrefixOf (p ++ t) = k.isPrefixOf t := by
    rw [Bool.eq_iff_iff]
    simp only [ List.isPrefixOf_iff_prefix]
    exact List.prefix_append_right_inj p
  rw [hb]

theorem headMatches_far (q k p cs : List Char)
    (hk : q <+: k) (hp : p.isPrefixOf cs = true)
    (h1 : q.isPrefixOf p = false) (h2 : p.isPrefixOf q = false) :
    headMatches k cs = false := by
  cases hkc : k.isPrefixOf cs with
  | false => simp [headMatches, hkc]
  | true =>
    exfalso
    have hqcs : q <+: cs := hk.trans ( List.isPrefixOf_iff_prefix.mp hkc)
    have hpcs : p <+: cs := List.isPrefixOf_iff_prefix.mp hp
    rcases List.prefix_or_prefix_of_prefix hqcs hpcs with h | h
    · have hb := List.isPrefixOf_iff_prefix.mpr h
      rw [h1] at hb
      exact Bool.noConfusion hb
    · have hb := List.isPrefixOf_iff_prefix.mpr h
      rw [h2] at hb
      exact Bool.noConfusion hb

theorem headMatches_far2 (q k cs : List Char)
    (hk : q <+: k) (h : q.isPrefixOf cs = false) :
    headMatches k cs = false := by
  cases hkc : k.isPrefixOf cs with
  | false => simp [headMatches, hkc]
  | true =>
    exfalso
    have hb := List.isPrefixOf_iff_prefix.mpr (hk.trans ( List.isPrefixOf_iff_prefix.mp hkc))
    rw [h] at hb
    exact Bool.noConfusion hb

theorem any_heads_false (f : List Char → Bool)
    (h : ∀ k ∈ pathHeads, f k = false) : pathHeads.any f = false := by
  apply List.any_eq_false.mpr
  intro k hk
  simp only [Bool.not_eq_true]
  exact h k hk

theorem stage_www (t : List Char) :
    ((pathHeads.any fun h => headMatches h t) ||
     (pathHeads.any fun h => headMatches (wwwDot ++ h) t))
      = pathHeads.any fun h => headMatches h (afterWww t) := by
  cases hw : wwwDot.isPrefixOf t with
  | false =>
    have k1 : (pathHeads.any fun h => headMatches (wwwDot ++ h) t) = false := by
      apply any_heads_false
      intro h _
      exact headMatches_far2 wwwDot (wwwDot ++ h) t (List.prefix_append _ _) hw
    rw [k1, Bool.or_false]
    unfold afterWww
    rw [hw]
    simp
  | true =>
    obtain ⟨u, rfl⟩ : ∃ u, t = wwwDot ++ u :=
      ⟨t.drop wwwDot.length, ( List.prefix_iff_eq_append.mp ( List.isPrefixOf_iff_prefix.mp hw)).symm⟩
    have k0 : (pathHeads.any fun h => headMatches h (wwwDot ++ u)) = false := by
      apply any_heads_false
      intro h hh
      have hwp : wwwDot.isPrefixOf (wwwDot ++ u) = true :=
        List.isPrefixOf_iff_prefix.mpr (List.prefix_append _ _)
      fin_cases hh <;>
        exact headMatches_far _ _ wwwDot (wwwDot ++ u) (List.prefix_refl _) hwp (by decide) (by decide)
    have ha : afterWww (wwwDot ++ u) = u := by
      unfold afterWww
      rw [show wwwDot.isPrefixOf (wwwDot ++ u) = true from
        List.isPrefixOf_iff_prefix.mpr (List.prefix_append _ _)]
      simp [List.drop_left]
    rw [k0, Bool.false_or, ha]
    simp only [headMatches_shift]

theorem stage_proto (cs : List Char) :
    matchesShapes pathHeads cs = pathHeads.any fun h => headMatches h (afterWww (afterProto cs)) := by
  unfold matchesShapes
  simp only [List.any_cons, List.any_nil, Bool.or_false, List.nil_append, List.append_nil,
    List.append_assoc]
  cases hps : protoHttps.isPrefixOf cs with
  | true =>
    obtain ⟨t, rfl⟩ : ∃ t, cs = protoHttps ++ t :=
      ⟨cs.drop protoHttps.length, ( List.prefix_iff_eq_append.mp ( List.isPrefixOf_iff_prefix.mp hps)).symm⟩
    have hp : protoHttps.isPrefixOf (protoHttps ++ t) = true :=
      List.isPrefixOf_iff_prefix.mpr (List.prefix_append _ _)
    have k00 : (pathHeads.any fun h => headMatches h (protoHttps ++ t)) = false := by
      apply any_heads_false
      intro h hh
      fin_cases hh <;>
        exact headMatches_far _ _ protoHttps (protoHttps ++ t) (List.prefix_refl _) hp
          (by decide) (by decide)
    have k0w : (pathHeads.any fun h => headMatches (wwwDot ++ h) (protoHttps ++ t)) = false := by
      apply any_heads_false
      intro h _
      exact headMatches_far wwwDot (wwwDot ++ h) protoHttps (protoHttps ++ t)
        (List.prefix_append _ _) hp (by decide) (by decide)
    have kh0 : (pathHeads.any fun h => headMatches (protoHttp ++ h) (protoHttps ++ t)) = false := by
      apply any_heads_false
      intro h _
      exact headMatches_far protoHttp (protoHttp ++ h) protoHttps (protoHttps ++ t)
        (List.prefix_append _ _) hp (by decide) (by decide)
    have khw : (pathHeads.any fun h => headMatches (protoHttp ++ (wwwDot ++ h)) (protoHttps ++ t)) = false := by
      apply any_heads_false
      intro h _
      exact headMatches_far protoHttp (protoHttp ++ (wwwDot ++ h)) protoHttps (protoHttps ++ t)
        (List.prefix_append _ _) hp (by decide) (by decide)
    have ha : afterProto (protoHttps ++ t) = t := by
      unfold afterProto
      rw [hp]
      simp [List.drop_left]
    rw [k00, k0w, kh0, khw, ha]
    simp only [Bool.false_or, headMatches_shift]
    exact stage_www t
  | false =>
    cases hph : protoHttp.isPrefixOf cs with
    | true =>
      obtain ⟨t, rfl⟩ : ∃ t, cs = protoHttp ++ t :=
        ⟨cs.drop protoHttp.length, ( List.prefix_iff_eq_append.mp ( List.isPrefixOf_iff_prefix.mp hph)).symm⟩
      have hp : protoHttp.isPrefixOf (protoHttp ++ t) = true :=
        List.isPrefixOf_iff_prefix.mpr (List.prefix_append _ _)
      have k00 : (pathHeads.any fun h => headMatches h (protoHttp ++ t)) = false := by
        apply any_heads_false
        intro h hh
        fin_cases hh <;>
          exact headMatches_far _ _ protoHttp (protoHttp ++ t) (List.prefix_refl _) hp
            (by decide) (by decide)
      have k0w : (pathHeads.any fun h => headMatches (wwwDot ++ h) (protoHttp ++ t)) = false := by
        apply any_heads_false
        intro h _
        exact headMatches_far wwwDot (wwwDot ++ h) protoHttp (protoHttp ++ t)
          (List.prefix_append _ _) hp (by decide) (by decide)
      have ks0 : (pathHeads.any fun h => headMatches (protoHttps ++ h) (protoHttp ++ t)) = false := by
        apply any_heads_false
        intro h _
        exact headMatches_far protoHttps (protoHttps ++ h) protoHttp (protoHttp ++ t)
          (List.prefix_append _ _) hp (by decide) (by decide)
      have ksw : (pathHeads.any fun h => headMatches (protoHttps ++ (wwwDot ++ h)) (protoHttp ++ t)) = false := by
        apply any_heads_false
        intro h _
        exact headMatches_far protoHttps (protoHttps ++ (wwwDot ++ h)) protoHttp (protoHttp ++ t)
          (List.prefix_append _ _) hp (by decide) (by decide)
      have ha : afterProto (protoHttp ++ t) = t := by
        unfold afterProto
        rw [show protoHttps.isPrefixOf (protoHttp ++ t) = false from rfl, hp]
        simp [List.drop_left]
      rw [k00, k0w, ks0, ksw, ha]
      simp only [Bool.false_or, Bool.or_false, headMatches_shift]
      exact stage_www t
    | false =>
      have ks0 : (pathHeads.any fun h => headMatches (protoHttps ++ h) cs) = false := by
        apply any_heads_false
        intro h _
        exact headMatches_far2 protoHttps (protoHttps ++ h) cs (List.prefix_append _ _) hps
      have ksw : (pathHeads.any fun h => headMatches (protoHttps ++ (wwwDot ++ h)) cs) = false := by
        apply any_heads_false
        intro h _
        exact headMatches_far2 protoHttps (protoHttps ++ (wwwDot ++ h)) cs (List.prefix_append _ _) hps
      have kh0 : (pathHeads.any fun h => headMatches (protoHttp ++ h) cs) = false := by
        apply any_heads_false
        intro h _
        exact headMatches_far2 protoHttp (protoHttp ++ h) cs (List.prefix_append _ _) hph
      have khw : (pathHeads.any fun h => headMatches (protoHttp ++ (wwwDot ++ h)) cs) = false := by
        apply any_heads_false
        intro h _
        exact headMatches_far2 protoHttp (protoHttp ++ (wwwDot ++ h)) cs (List.prefix_append _ _) hph
      have ha : afterProto cs = cs := by
        unfold afterProto
        rw [hps, hph]
        simp
      rw [ks0, ksw, kh0, khw, ha]
      simp only [Bool.or_false]
      exact stage_www cs

theorem valid_eq_five_shapes (url : String) :
    isValidYouTubeUrl url = specFiveShapeValid url := by
  unfold isValidYouTubeUrl specFiveShapeValid validCore
  exact (stage_proto url.data).symm

/-- C1 (counterexample): the claim fails in two ways. The validator accepts
the legacy `/v/` path, which is not one of the four shapes named by the
spec; and a non-string input is not necessarily rejected, because
`RegExp.test` coerces it with ToString first — a one-element array holding
a valid URL string coerces to that string and is accepted. -/
theorem url_validator_c1_counterexample :
    (isValidYouTubeUrl "youtube.com/v/abc" = true ∧
     specFourShapeValid "youtube.com/v/abc" = false) ∧
    isValidYouTubeUrlJs (.arr [.str "https://youtu.be/a"]) = true := by
  refine ⟨by decide, ?_⟩
  rw [isValidYouTubeUrlJs,
    show jsToString (.arr [.str "https://youtu.be/a"]) = "https://youtu.be/a" by
      simp [jsToString, jsArrString]]
  decide

/-- C1 (amended): applied to an arbitrary input, the validator first
coerces the input to a string (JS ToString; the identity on strings) and
returns true exactly when the coerced string matches one of five accepted
URL shapes — watch-query, short-link, embed, shorts, and the legacy v-path
— with optional protocol and `www.` prefixes and a non-empty identifier
character; so a non-string input whose coercion matches the grammar, such
as a one-element array holding a valid URL, is accepted rather than
rejected. -/
theorem url_validator_amended :
    (∀ url : String, isValidYouTubeUrl url = specFiveShapeValid url) ∧
    (∀ v : JsValue, isValidYouTubeUrlJs v = specFiveShapeValid (jsToString v)) :=
  ⟨valid_eq_five_shapes, fun v => valid_eq_five_shapes (jsToString v)⟩

/-! ### Quality selector mapping (claim C5) -/

/-- C5: the quality-to-format mapping is a total function on strings, sends
each of the seven documented selector values to exactly the listed
expression, and sends every other string to the same expression as
"best". -/
theorem formatSelector_total_with_default :
    formatSelector "best" = "best" ∧
    formatSelector "4k" = "bestvideo[height<=2160]+bestaudio/best[height<=2160]" ∧
    formatSelector "1080p" = "bestvideo[height<=1080]+bestaudio/best[height<=1080]" ∧
    formatSelector "720p" = "bestvideo[height<=720]+bestaudio/best[height<=720]" ∧
    formatSelector "480p" = "bestvideo[height<=480]+bestaudio/best[height<=480]" ∧
    formatSelector "360p" = "bestvideo[height<=360]+bestaudio/best[height<=360]" ∧
    formatSelector "audio" = formatSelector "best" ∧
    ∀ q : String,
      q ∉ (["best", "4k", "1080p", "720p", "480p", "360p", "audio"] : List String) →
      formatSelector q = formatSelector "best" := by
  refine ⟨rfl, rfl, rfl, rfl, rfl, rfl, rfl, ?_⟩
  intro q hq
  have e1 : (q == "4k") = false := beq_eq_false_iff_ne.mpr fun h => hq (by simp [h])
  have e2 : (q == "1080p") = false := beq_eq_false_iff_ne.mpr fun h => hq (by simp [h])
  have e3 : (q == "720p") = false := beq_eq_false_iff_ne.mpr fun h => hq (by simp [h])
  have e4 : (q == "480p") = false := beq_eq_false_iff_ne.mpr fun h => hq (by simp [h])
  have e5 : (q == "360p") = false := beq_eq_false_iff_ne.mpr fun h => hq (by simp [h])
  simp [formatSelector, e1, e2, e3, e4, e5]

theorem formatSelector_witness :
    formatSelector "ultra" = formatSelector "best" :=
  formatSelector_total_with_default.2.2.2.2.2.2.2 "ultra" (by decide)

/-! ### Filename sanitization (claim C6) -/

theorem collapseWsAux_mem (l : List Char) :
    ∀ b, ∀ c ∈ collapseWsAux b l, c = '_' ∨ (c ∈ l ∧ isJsWs c = false) := by
  induction l with
  | nil =>
    intro b d hd
    simp [collapseWsAux] at hd
  | cons c tail ih =>
    intro b d hd
    cases hc : isJsWs c with
    | true =>
      rw [collapseWsAux, if_pos hc] at hd
      cases b with
      | true =>
        rcases ih true d hd with h2 | h2
        · exact Or.inl h2
        · exact Or.inr ⟨List.mem_cons_of_mem c h2.1, h2.2⟩
      | false =>
        rcases List.mem_cons.mp hd with h | h
        · exact Or.inl h
        · rcases ih true d h with h2 | h2
          · exact Or.inl h2
          · exact Or.inr ⟨List.mem_cons_of_mem c h2.1, h2.2⟩
    | false =>
      rw [collapseWsAux, if_neg (by simp [hc])] at hd
      rcases List.mem_cons.mp hd with h | h
      · subst h
        exact Or.inr ⟨List.mem_cons_self _ _, hc⟩
      · rcases ih false d h with h2 | h2
        · exact Or.inl h2
        · exact Or.inr ⟨List.mem_cons_of_mem c h2.1, h2.2⟩

theorem collapseWs_mem (l : List Char) :
    ∀ c ∈ collapseWs l, c = '_' ∨ (c ∈ l ∧ isJsWs c = false) :=
  collapseWsAux_mem l false

theorem collapseWs_eq_self (l : List Char) (h : ∀ c ∈ l, isJsWs c = false) :
    collapseWs l = l := by
  unfold collapseWs
  induction l with
  | nil => rfl
  | cons c rest ih =>
    rw [collapseWsAux, if_neg (by simp [h c (List.mem_cons_self _ _)])]
    rw [ih fun d hd => h d (List.mem_cons_of_mem c hd)]

theorem dropWhile_eq_self_of_none (p : Char → Bool) (l : List Char)
    (h : ∀ c ∈ l, p c = false) : l.dropWhile p = l := by
  cases l with
  | nil => rfl
  | cons c rest => exact List.dropWhile_cons_of_neg (by simp [h c (List.mem_cons_self _ _)])

theorem jsTrim_eq_self (l : List Char) (h : ∀ c ∈ l, isJsWs c = false) :
    jsTrim l = l := by
  unfold jsTrim
  rw [dropWhile_eq_self_of_none _ _ h]
  rw [dropWhile_eq_self_of_none _ _ fun c hc => h c (List.mem_reverse.mp hc)]
  exact List.reverse_reverse l

theorem sanitizeTitle_chars (s : String) :
    ∀ c ∈ (sanitizeTitle s).data, isSafeChar c = true := by
  intro c hc
  have hc2 : c ∈ collapseWs (stripUnsafe (jsTrim s.data)) := List.take_subset _ _ hc
  rcases collapseWs_mem _ c hc2 with h | h
  · subst h
    decide
  · have hmem : c ∈ stripUnsafe (jsTrim s.data) := h.1
    have hkeep := List.of_mem_filter hmem
    unfold isSafeChar
    rcases Bool.or_eq_true_iff.mp hkeep with h2 | h2
    · rcases Bool.or_eq_true_iff.mp h2 with h3 | h3
      · simp [h3]
      · rw [h3] at h
        exact Bool.noConfusion h.2
    · simp [h2]

theorem sanitizeTitle_no_ws (s : String) :
    ∀ c ∈ (sanitizeTitle s).data, isJsWs c = false := by
  intro c hc
  have hc2 : c ∈ collapseWs (stripUnsafe (jsTrim s.data)) := List.take_subset _ _ hc
  rcases collapseWs_mem _ c hc2 with h | h
  · subst h
    decide
  · exact h.2

theorem safe_keeps (c : Char) (h : isSafeChar c = true) :
    (isWordChar c || isJsWs c || c = '-') = true := by
  rcases Bool.or_eq_true_iff.mp h with h2 | h2
  · simp [h2]
  · simp [h2]

theorem sanitizeTitle_fixed (l : List Char)
    (hsafe : ∀ c ∈ l, isSafeChar c = true)
    (hnws : ∀ c ∈ l, isJsWs c = false)
    (hlen : l.length ≤ 100) :
    sanitizeTitle ⟨l⟩ = ⟨l⟩ := by
  unfold sanitizeTitle
  have hd : (⟨l⟩ : String).data = l := rfl
  rw [hd]
  rw [jsTrim_eq_self l hnws]
  rw [show stripUnsafe l = l from List.filter_eq_self.mpr fun c hc => safe_keeps c (hsafe c hc)]
  rw [collapseWs_eq_self l hnws]
  rw [List.take_of_length_le hlen]

theorem sanitizeTitle_len (s : String) : (sanitizeTitle s).length ≤ 100 := by
  show ((collapseWs (stripUnsafe (jsTrim s.data))).take 100).length ≤ 100
  rw [List.length_take]
  exact Nat.min_le_left _ _

/-- C6: the filename sanitizer is idempotent, its output is at most 100
characters long, and every output character is in the safe filename
alphabet (word characters and the hyphen). -/
theorem sanitizeTitle_idempotent_bounded_safe (s : String) :
    sanitizeTitle (sanitizeTitle s) = sanitizeTitle s ∧
    (sanitizeTitle s).length ≤ 100 ∧
    ∀ c ∈ (sanitizeTitle s).data, isSafeChar c = true := by
  refine ⟨?_, sanitizeTitle_len s, sanitizeTitle_chars s⟩
  exact sanitizeTitle_fixed (sanitizeTitle s).data (sanitizeTitle_chars s)
    (sanitizeTitle_no_ws s) (sanitizeTitle_len s)

theorem sanitizeTitle_witness :
    sanitizeTitle (sanitizeTitle "a b:c") = sanitizeTitle "a b:c" ∧
    (sanitizeTitle "a b:c").length ≤ 100 ∧
    isSafeChar 'a' = true :=
  ⟨(sanitizeTitle_idempotent_bounded_safe "a b:c").1,
   (sanitizeTitle_idempotent_bounded_safe "a b:c").2.1,
   (sanitizeTitle_idempotent_bounded_safe "a b:c").2.2 'a' (by decide)⟩

/-! ### Temp-file janitor (claims C7 and C8) -/

theorem cleanupOldFiles_cons (now : Int) (x : FsEntry) (l : List FsEntry) :
    cleanupOldFiles now (x :: l)
      = if x.statErr then (x :: l, true)
        else if isOld now x then
          (if x.unlinkErr then (x :: l, true) else cleanupOldFiles now l)
        else (x :: (cleanupOldFiles now l).1, (cleanupOldFiles now l).2) := rfl

/-- C7 (counterexample): with a stat error on the first entry and a second
entry that is old and error-free, the sweep leaves the second entry in
place — the error aborts the sweep instead of letting it continue. -/
theorem janitor_abort_counterexample :
    isOld 7200000 ⟨"b", 0, false, false⟩ = true ∧
    (⟨"b", 0, false, false⟩ : FsEntry).statErr = false ∧
    (⟨"b", 0, false, false⟩ : FsEntry).unlinkErr = false ∧
    (cleanupOldFiles 7200000 [⟨"a", 0, true, false⟩, ⟨"b", 0, false, false⟩]).1
      = [⟨"a", 0, true, false⟩, ⟨"b", 0, false, false⟩] := by
  decide

/-- C7 (amended): an error raised while statting or deleting one entry is
caught and logged by the handler wrapping the sweep, but it aborts the
sweep: entries before the failing one are processed normally, while the
failing entry and every entry after it are left unexamined until the next
cycle. -/
theorem janitor_error_logged_but_aborts (now : Int) (pre post : List FsEntry) (e : FsEntry)
    (hpre : ∀ x ∈ pre, entryFails now x = false)
    (he : entryFails now e = true) :
    cleanupOldFiles now (pre ++ e :: post)
      = (pre.filter (fun x => !isOld now x) ++ e :: post, true) := by
  induction pre with
  | nil =>
    simp only [List.nil_append, List.filter_nil]
    cases hs : e.statErr with
    | true => simp [cleanupOldFiles, hs]
    | false =>
      unfold entryFails at he
      rw [hs, Bool.false_or] at he
      obtain ⟨ho, hu⟩ := Bool.and_eq_true_iff.mp he
      simp [cleanupOldFiles, hs, ho, hu]
  | cons x xs ih =>
    have hx := hpre x (List.mem_cons_self _ _)
    have hxs : ∀ y ∈ xs, entryFails now y = false :=
      fun y hy => hpre y (List.mem_cons_of_mem x hy)
    unfold entryFails at hx
    have hs : x.statErr = false := by
      cases h : x.statErr
      · rfl
      · rw [h, Bool.true_or] at hx
        exact Bool.noConfusion hx
    rw [hs, Bool.false_or] at hx
    cases ho : isOld now x with
    | true =>
      have hu : x.unlinkErr = false := by
        rw [ho, Bool.true_and] at hx
        exact hx
      rw [List.cons_append]
      rw [show cleanupOldFiles now (x :: (xs ++ e :: post))
            = cleanupOldFiles now (xs ++ e :: post) by
          rw [cleanupOldFiles_cons, hs, ho, hu]
          simp]
      rw [ih hxs]
      rw [List.filter_cons_of_neg (by simp [ho])]
    | false =>
      rw [List.cons_append]
      rw [show cleanupOldFiles now (x :: (xs ++ e :: post))
            = ((x :: (cleanupOldFiles now (xs ++ e :: post)).1,
                (cleanupOldFiles now (xs ++ e :: post)).2) : List FsEntry × Bool) by
          rw [cleanupOldFiles_cons, hs, ho]
          simp]
      rw [ih hxs]
      rw [List.filter_cons_of_pos (by simp [ho])]
      simp

theorem janitor_abort_witness :
    cleanupOldFiles 7200000
        ([⟨"f", 7000000, false, false⟩] ++ (⟨"g", 0, false, true⟩ : FsEntry) :: [⟨"h", 0, false, false⟩])
      = ([⟨"f", 7000000, false, false⟩].filter (fun x => !isOld 7200000 x)
          ++ (⟨"g", 0, false, true⟩ : FsEntry) :: [⟨"h", 0, false, false⟩], true) :=
  janitor_error_logged_but_aborts 7200000 _ _ _ (by decide) (by decide)

/-- C8 (counterexample): a single old entry whose unlink rejects survives
the sweep, so after the sweep an entry older than the retention window can
remain in the scratch directory. -/
theorem janitor_retention_counterexample :
    isOld 7200000 ⟨"c", 0, false, true⟩ = true ∧
    (⟨"c", 0, false, true⟩ : FsEntry) ∈ (cleanupOldFiles 7200000 [⟨"c", 0, false, true⟩]).1 := by
  decide

/-- C8 (amended): provided no stat or unlink call rejects during the sweep,
no entry remaining after the sweep has an age exceeding the one-hour
retention window at the sweep's timestamp (entries appearing later are
outside the swept listing and so exempt until the next cycle). -/
theorem janitor_retention_when_error_free (now : Int) (es : List FsEntry)
    (h : ∀ x ∈ es, entryFails now x = false) :
    ∀ e ∈ (cleanupOldFiles now es).1, isOld now e = false := by
  induction es with
  | nil =>
    intro e he
    simp [cleanupOldFiles] at he
  | cons x xs ih =>
    have hx := h x (List.mem_cons_self _ _)
    have hxs : ∀ y ∈ xs, entryFails now y = false :=
      fun y hy => h y (List.mem_cons_of_mem x hy)
    unfold entryFails at hx
    have hs : x.statErr = false := by
      cases hb : x.statErr
      · rfl
      · rw [hb, Bool.true_or] at hx
        exact Bool.noConfusion hx
    rw [hs, Bool.false_or] at hx
    intro e he
    cases ho : isOld now x with
    | true =>
      have hu : x.unlinkErr = false := by
        rw [ho, Bool.true_and] at hx
        exact hx
      rw [show cleanupOldFiles now (x :: xs) = cleanupOldFiles now xs by
        rw [cleanupOldFiles_cons, hs, ho, hu]
        simp] at he
      exact ih hxs e he
    | false =>
      rw [show (cleanupOldFiles now (x :: xs)).1 = x :: (cleanupOldFiles now xs).1 by
        rw [cleanupOldFiles_cons, hs, ho]
        simp] at he
      rcases List.mem_cons.mp he with h2 | h2
      · subst h2
        exact ho
      · exact ih hxs e h2

theorem janitor_retention_witness :
    isOld 7200000 (⟨"f", 7000000, false, false⟩ : FsEntry) = false :=
  janitor_retention_when_error_free 7200000
    [⟨"f", 7000000, false, false⟩, ⟨"g", 0, false, false⟩] (by decide)
    ⟨"f", 7000000, false, false⟩ (by decide)

/-! ### Invalid url short-circuits every handler (claim C2) -/

/-- C2: when the url field is missing or fails the validator, each of the
three endpoints responds 400 with the invalid-url error and spawns no
external process. -/
theorem invalid_url_rejected_without_spawn (url? : Option String)
    (h : urlRejected url? = true) :
    (∀ cp p fb, videoInfoHandler cp url? p fb = ([respInvalidUrl], [])) ∧
    (∀ cp q tc st, downloadHandler cp url? q tc st = (.badRequest respInvalidUrl, [])) ∧
    (∀ fr, formatsHandler url? fr = ([respInvalidUrl], [])) := by
  cases url? with
  | none => exact ⟨fun _ _ _ => rfl, fun _ _ _ _ => rfl, fun _ => rfl⟩
  | some u =>
    simp only [urlRejected] at h
    refine ⟨fun cp p fb => ?_, fun cp q tc st => ?_, fun fr => ?_⟩
    · simp only [videoInfoHandler]
      rw [h]
      simp
    · simp only [downloadHandler]
      rw [h]
      simp
    · simp only [formatsHandler]
      rw [h]
      simp

theorem invalid_url_witness :
    videoInfoHandler none (some "not-a-url") (.ran ⟨0, .fail "x", ""⟩) (.ran ⟨0, .fail "x", ""⟩)
      = ([respInvalidUrl], []) :=
  (invalid_url_rejected_without_spawn (some "not-a-url") (by decide)).1
    none (.ran ⟨0, .fail "x", ""⟩) (.ran ⟨0, .fail "x", ""⟩)

/-! ### Anti-automation retry (claim C3) -/

/-- C3: when the primary run exits non-zero with the authentication
signature in its stderr, exactly one retry is spawned, with the fallback
argument list, whose user-agent and extractor-args values differ from the
primary profile; when that retry also exits non-zero the sole response is
the distinguishable 400 authentication error. -/
theorem auth_retry_once_then_400 (cp : Option String) (url : String) (r r2 : InfoRun)
    (hv : urlRejected (some url) = false)
    (h1 : r.exitCode ≠ 0) (hsig : hasAuthSig r.stderr = true) (h2 : r2.exitCode ≠ 0) :
    videoInfoHandler cp (some url) (.ran r) (.ran r2)
        = ([respAuthRequired], [infoArgs cp url, fallbackArgs url]) ∧
    argValue "--user-agent" (infoBaseArgs url) ≠ argValue "--user-agent" (fallbackArgs url) ∧
    argValue "--extractor-args" (infoBaseArgs url) ≠ argValue "--extractor-args" (fallbackArgs url) := by
  simp only [urlRejected] at hv
  refine ⟨?_, ?_, ?_⟩
  · simp only [videoInfoHandler]
    rw [hv]
    simp only [Bool.false_eq_true, if_false]
    rw [if_pos (bne_iff_ne.mpr h1)]
    rw [if_pos hsig]
    simp only [closeFallback]
    rw [if_pos (bne_iff_ne.mpr h2)]
    rfl
  · rw [show argValue "--user-agent" (infoBaseArgs url) = some primaryUA from rfl,
        show argValue "--user-agent" (fallbackArgs url) = some fallbackUA from rfl]
    decide
  · rw [show argValue "--extractor-args" (infoBaseArgs url)
          = some "youtube:player_client=web" from rfl,
        show argValue "--extractor-args" (fallbackArgs url)
          = some "youtube:player_client=android,web" from rfl]
    decide

theorem auth_retry_witness :
    videoInfoHandler none (some "https://youtu.be/a")
        (.ran ⟨1, .fail "m", "Sign in to confirm"⟩) (.ran ⟨1, .fail "m", ""⟩)
      = ([respAuthRequired], [infoArgs none "https://youtu.be/a", fallbackArgs "https://youtu.be/a"]) :=
  (auth_retry_once_then_400 none "https://youtu.be/a"
    ⟨1, .fail "m", "Sign in to confirm"⟩ ⟨1, .fail "m", ""⟩
    (by decide) (by decide) (by decide) (by decide)).1

/-! ### Metadata fetch close outcomes (claim C4) -/

/-- C4: for a valid url, exit zero with well-formed JSON yields a single
200 response carrying the mapped metadata fields; exit zero with malformed
JSON yields 500; a non-zero exit without the anti-automation signature
yields 400 with the stderr diagnostic passed through. -/
theorem video_info_close_outcomes (cp : Option String) (url : String) (r : InfoRun) (fb : Proc)
    (hv : urlRejected (some url) = false) :
    (∀ j, r.exitCode = 0 → r.parsed = .ok j →
      videoInfoHandler cp (some url) (.ran r) fb
        = ([⟨200, .info (mapInfo j)⟩], [infoArgs cp url])) ∧
    (∀ m, r.exitCode = 0 → r.parsed = .fail m →
      videoInfoHandler cp (some url) (.ran r) fb
        = ([⟨500, .err "Failed to parse video information" (some m)⟩], [infoArgs cp url])) ∧
    (r.exitCode ≠ 0 → hasAuthSig r.stderr = false → r.stderr ≠ "" →
      videoInfoHandler cp (some url) (.ran r) fb
        = ([⟨400, .err "Failed to fetch video information" (some r.stderr)⟩], [infoArgs cp url])) := by
  simp only [urlRejected] at hv
  refine ⟨?_, ?_, ?_⟩
  · intro j h0 hp
    simp only [videoInfoHandler]
    rw [hv]
    simp only [Bool.false_eq_true, if_false]
    rw [if_neg (by simp [h0])]
    rw [hp]
    rfl
  · intro m h0 hp
    simp only [videoInfoHandler]
    rw [hv]
    simp only [Bool.false_eq_true, if_false]
    rw [if_neg (by simp [h0])]
    rw [hp]
    rfl
  · intro h1 hs hne
    simp only [videoInfoHandler]
    rw [hv]
    simp only [Bool.false_eq_true, if_false]
    rw [if_pos (bne_iff_ne.mpr h1)]
    rw [hs]
    simp only [Bool.false_eq_true, if_false]
    rw [if_neg (by simp [beq_eq_false_iff_ne.mpr hne])]
    rfl

theorem video_info_witness :
    videoInfoHandler none (some "https://youtu.be/a")
        (.ran ⟨0, .ok (.obj [("title", .str "T")]), ""⟩) (.ran ⟨0, .fail "x", ""⟩)
      = ([⟨200, .info (mapInfo (.obj [("title", .str "T")]))⟩], [infoArgs none "https://youtu.be/a"]) :=
  (video_info_close_outcomes none "https://youtu.be/a"
    ⟨0, .ok (.obj [("title", .str "T")]), ""⟩ (.ran ⟨0, .fail "x", ""⟩) (by decide)).1
    (.obj [("title", .str "T")]) rfl rfl

/-! ### Download stream failure before and after headers (claim C9) -/

/-- C9 (counterexample): with a valid url and a streaming process that
exits with status 1 before producing any stdout chunk, the handler does
not respond with an error status: piping already ended the response before
the close event, so the result is the ended, empty 200 stream rather than
the 500 the dead guard would send. -/
theorem download_no_error_counterexample :
    downloadHandler none (some "https://youtu.be/a") none [] ⟨[], 1⟩
      = (.streamed "youtube_video.mp4" [],
         [titleArgs "https://youtu.be/a",
          downloadArgs none (formatSelector "best") "https://youtu.be/a"]) ∧
    (1 : Int) ≠ 0 := by
  constructor
  · rfl
  · decide

/-- C9 (amended): on the titleProcess close path, if the streaming process
exits with non-zero status — whether before producing any output or after
streaming began — the response stream simply ends with whatever bytes were
already relayed (an empty body in the former case) and no error status is
sent: `pipe` has already ended the response by the time the close event
fires, so the handler's pre-stream 500 branch is unreachable. -/
theorem download_stream_just_ends (cp : Option String) (url : String)
    (q? : Option String) (tc : List String) (st : StreamRun)
    (hv : urlRejected (some url) = false) (_h1 : st.exitCode ≠ 0) :
    downloadHandler cp (some url) q? tc st
      = (.streamed (downloadTitle tc ++ ".mp4") st.chunks,
         [titleArgs url, downloadArgs cp (formatSelector (q?.getD "best")) url]) := by
  simp only [urlRejected] at hv
  simp only [downloadHandler]
  rw [hv]
  simp

theorem download_stream_ends_witness :
    downloadHandler none (some "https://youtu.be/a") none ["My Title"] ⟨["bytes"], 1⟩
      = (.streamed (downloadTitle ["My Title"] ++ ".mp4") ["bytes"],
         [titleArgs "https://youtu.be/a",
          downloadArgs none (formatSelector ((none : Option String).getD "best")) "https://youtu.be/a"]) :=
  download_stream_just_ends none "https://youtu.be/a" none ["My Title"] ⟨["bytes"], 1⟩
    (by decide) (by decide)

/-! ### At most one response per metadata request (claim C10) -/

/-- C10: the metadata handler writes at most one HTTP response whatever the
request and process outcomes are, including when a spawn-failure error
event is followed by a close event: every send on the primary invocation
is guarded by the headers-already-sent check. -/
theorem video_info_at_most_one_response (cp : Option String) (url? : Option String)
    (p fb : Proc) :
    (videoInfoHandler cp url? p fb).1.length ≤ 1 := by
  have hno : hasAuthSig "" = false := rfl
  cases url? with
  | none => simp [videoInfoHandler]
  | some url =>
    by_cases hc : (url == "" || !isValidYouTubeUrl url) = true
    · simp [videoInfoHandler, hc]
    · cases p with
      | spawnFailed msg =>
        simp [videoInfoHandler, hc, hno, sendGuarded, sendAlways]
      | ran r =>
        by_cases h0 : (r.exitCode != 0) = true
        · by_cases hs : hasAuthSig r.stderr = true
          · cases fb with
            | spawnFailed m2 =>
              simp [videoInfoHandler, closeFallback, hc, h0, hs, sendAlways]
            | ran r2 =>
              by_cases h2 : (r2.exitCode != 0) = true
              · simp [videoInfoHandler, closeFallback, hc, h0, hs, h2, sendAlways]
              · cases hp : r2.parsed <;>
                  simp [videoInfoHandler, closeFallback, hc, h0, hs, h2, hp, sendAlways]
          · simp [videoInfoHandler, hc, h0, hs, sendGuarded]
        · cases hp : r.parsed <;>
            simp [videoInfoHandler, hc, h0, hp, sendGuarded]

end YtDl
